import Mathlib

/-!
# CallExprToValue

A shallow embedding of `CallExprToValue.cpp` (the `callexpr-to-value` pass of C-Reduce's
`clang_delta`) and theorems about the selection of the N-th call expression and its replacement.

* The syntax tree is the tree of nodes the `RecursiveASTVisitor` walks: a node is a call
  expression, a function declaration, another named declaration, or anything else; every node
  has an ordered list of children.  The visitor is pre-order: `Visit*` runs on a node before its
  children are traversed, and both `Visit*` methods of the source always return `true`, so the
  traversal never stops early.
* Pointers are `Option` values (`NULL` is `none`).  A node is identified by its data (type
  and source range for a call expression; name, kind and source range for a function
  declaration).
* The two `int` counters `TransformationCounter` and `ValidInstanceNum` are `Int`; the suffix
  counter `NamePostfix` is `Nat`.  No bound of a machine integer is modelled: the counters
  only count the call expressions and the placeholder names of one translation unit.
* The calls into `RewriteHelper` are recorded, in order, in the `edits` log of the state.
* `TransAssert` terminates the program: `HandleTranslationUnit` returns `none` in that case.
* The headers `CallExprToValue.h`, `Transformation.h`, `RewriteUtils.h` and `TransNameQuery.h`
  are not part of the source at hand; what the pass uses of them is modelled from the spec and
  marked so.
-/

namespace CallExprToValue

/-! ## Data model -/

/-- A source range: the offsets of its first and last character. -/
structure SourceRange where
  Begin : Nat
  End : Nat
  deriving DecidableEq

/-- The classification of a type, as far as the predicates `isVoidType`, `isUnionType` and
`isStructureType` of clang and the spec's type categories tell types apart. -/
inductive TypeClass where
  | Void
  | Union
  | Struct
  | Class
  | Integer
  | Floating
  | Enumeration
  | Pointer
  | Other
  deriving DecidableEq

/-- A qualified type: its class and its spelling under the printing policy. -/
structure QualType where
  typeClass : TypeClass
  spelling : String
  deriving DecidableEq

def QualType.isVoidType (T : QualType) : Bool :=
  T.typeClass = TypeClass.Void

def QualType.isUnionType (T : QualType) : Bool :=
  T.typeClass = TypeClass.Union

def QualType.isStructureType (T : QualType) : Bool :=
  T.typeClass = TypeClass.Struct

/-- The printer of clang (a library the pass calls) for a tag type: the spelling of the type,
then the content of the buffer as the declared name, separated by one space when the buffer is
not empty; the spec has it as "the type's canonical spelling followed by `P`". -/
def QualType.getAsStringInternal (T : QualType) (Str : String) : String :=
  if Str = "" then T.spelling else T.spelling ++ " " ++ Str

/-- A call expression: its result type and its source range. -/
structure CallExpr where
  type : QualType
  range : SourceRange
  deriving DecidableEq

/-- A function declaration. -/
structure FunctionDecl where
  name : String
  isThisDeclarationADefinition : Bool
  range : SourceRange
  deriving DecidableEq

mutual
/-- A node of the syntax tree, as the visitor sees it. -/
inductive Node where
  | callExpr (CE : CallExpr) (children : NodeList)
  | functionDecl (FD : FunctionDecl) (children : NodeList)
  | namedDecl (name : String) (children : NodeList)
  | other (children : NodeList)
/-- An ordered list of nodes. -/
inductive NodeList where
  | nil
  | cons (n : Node) (rest : NodeList)
end

/-- A group of top-level declarations (`DeclGroupRef`). -/
abbrev DeclGroupRef := List Node

/-- The translation unit with the answers of its diagnostics engine when it is asked after the
edits. -/
structure ASTContext where
  TranslationUnitDecl : List DeclGroupRef
  hasErrorOccurred : Bool
  hasFatalErrorOccurred : Bool

/-- One call into the rewriter, with the pointers it is given (`CurrentFD` may be `NULL` as far
as the type goes; `TheCallExpr` has been dereferenced before). -/
inductive Edit where
  | insertStringBeforeFunc (FD : Option FunctionDecl) (Str : String)
  | replaceExpr (E : CallExpr) (ES : String)
  deriving DecidableEq

/-- Modelled from the spec: the error codes of a transformation this pass uses (the
enumeration is declared in `Transformation.h`): no error, the internal-rewrite error and the
"exceeded" error. -/
inductive TransformationError where
  | TransSuccess
  | TransInternalError
  | TransMaxInstanceError
  deriving DecidableEq

/-- State of the visitor `CallExprToValueVisitor`. -/
structure CallExprToValueVisitor where
  CurrentFD : Option FunctionDecl

/-- State of the consumer `CallExprToValue`, with the state of the visitor it owns and the log
of the rewriter. -/
structure State where
  TransformationCounter : Int
  QueryInstanceOnly : Bool
  ValidInstanceNum : Int
  TransError : TransformationError
  TheCallExpr : Option CallExpr
  CurrentFD : Option FunctionDecl
  NamePostfix : Nat
  TmpVarNamePre : String
  CollectionVisitor : CallExprToValueVisitor
  edits : List Edit

/-! ## Name query and rewriter helpers -/

/-- Modelled from the spec: the value of a decimal digit character, if it is one (part of the
name query, which "parses the trailing integer"). -/
def digitValue (c : Char) : Option Nat :=
  if c.isDigit then some (c.toNat - 48) else none

/-- Modelled from the spec: reads a string of decimal digits, most significant first (part of
the name query). -/
def parseDigits : List Char → Nat → Option Nat
  | [], acc => some acc
  | c :: cs, acc =>
    match digitValue c with
    | some d => parseDigits cs (acc * 10 + d)
    | none => none

/-- Modelled from the spec: the numeric suffix of an identifier that starts with `pre` (part
of the name query, which "retains those matching the fixed prefix, parses the trailing
integer"): the integer its remaining characters spell, if they are a non-empty string of
digits. -/
def namePostfix (pre : String) (name : String) : Option Nat :=
  if pre.toList.isPrefixOf name.toList then
    match name.toList.drop pre.toList.length with
    | [] => none
    | c :: cs => parseDigits (c :: cs) 0
  else none

mutual
/-- The identifiers declared in a node, in traversal order. -/
def identifiersNode : Node → List String
  | .callExpr _ children => identifiersList children
  | .functionDecl FD children => FD.name :: identifiersList children
  | .namedDecl name children => name :: identifiersList children
  | .other children => identifiersList children
/-- The identifiers declared in a list of nodes. -/
def identifiersList : NodeList → List String
  | .nil => []
  | .cons n rest => identifiersNode n ++ identifiersList rest
end

/-- Modelled from the spec: the identifiers declared anywhere in the translation unit (the
name query "scans every identifier in the tree"). -/
def identifiers (TU : List DeclGroupRef) : List String :=
  TU.flatMap (fun D => D.flatMap identifiersNode)

/-- Modelled from the spec: `TransNameQueryWrap::getMaxNamePostfix` after the traversal of the
translation unit (the name query is not part of the source at hand): the maximum numeric suffix
among the existing identifiers that start with the placeholder prefix, 0 if there is none. -/
def getMaxNamePostfix (pre : String) (TU : List DeclGroupRef) : Nat :=
  (identifiers TU).foldl (fun m name => max m ((namePostfix pre name).getD 0)) 0

/-- Modelled from the spec: `RewriteUtils::getTmpTransName` (the rewriter is not part of the
source at hand): the placeholder prefix followed by the suffix in decimal. -/
def getTmpTransName (pre : String) (Postfix : Nat) : String :=
  pre ++ toString Postfix

/-! ## The pass -/

def VisitCallExpr (s : State) (CE : CallExpr) : State :=
  let s := { s with ValidInstanceNum := s.ValidInstanceNum + 1 }
  if s.TransformationCounter ≠ s.ValidInstanceNum then
    s
  else
    { s with TheCallExpr := some CE, CurrentFD := s.CollectionVisitor.CurrentFD }

def VisitFunctionDecl (s : State) (FD : FunctionDecl) : State :=
  { s with CollectionVisitor := { CurrentFD := some FD } }

mutual
/-- The pre-order traversal of `RecursiveASTVisitor` from one node. -/
def TraverseNode : Node → State → State
  | .callExpr CE children, s => TraverseList children (VisitCallExpr s CE)
  | .functionDecl FD children, s => TraverseList children (VisitFunctionDecl s FD)
  | .namedDecl _ children, s => TraverseList children s
  | .other children, s => TraverseList children s
/-- The traversal of the children of a node, in order. -/
def TraverseList : NodeList → State → State
  | .nil, s => s
  | .cons n rest, s => TraverseList rest (TraverseNode n s)
end

/-- Modelled from the spec: the state after the constructors and `Initialize` (the
constructors are in `CallExprToValue.h` and `Transformation.h`), for a given placeholder prefix,
counter and query flag: the running counter is 0, no error is set, nothing is recorded and no
edit is issued. -/
def Initialize (pre : String) (Counter : Int) (Query : Bool) : State :=
  { TransformationCounter := Counter
    QueryInstanceOnly := Query
    ValidInstanceNum := 0
    TransError := TransformationError.TransSuccess
    TheCallExpr := none
    CurrentFD := none
    NamePostfix := 0
    TmpVarNamePre := pre
    CollectionVisitor := { CurrentFD := none }
    edits := [] }

/-- One step of the loop of `HandleTopLevelDecl`. -/
def HandleDecl (s : State) (d : Node) : State :=
  match d with
  | .functionDecl FD _ => if FD.isThisDeclarationADefinition then TraverseNode d s else s
  | _ => s

def HandleTopLevelDecl (s : State) (D : DeclGroupRef) : State :=
  D.foldl HandleDecl s

/-- The body of `replaceCallExpr`.  It runs only after both assertions of
`HandleTranslationUnit`; `TheCallExpr` is dereferenced first. -/
def replaceCallExpr (s : State) : State :=
  match s.TheCallExpr with
  | none => s
  | some CE =>
    let RVQualType := CE.type
    if RVQualType.isVoidType then
      { s with edits := s.edits ++ [Edit.replaceExpr CE ""] }
    else if RVQualType.isUnionType || RVQualType.isStructureType then
      let RVStr := getTmpTransName s.TmpVarNamePre s.NamePostfix
      let CommaStr := RVStr
      let RVStr := RVQualType.getAsStringInternal RVStr
      let RVStr := RVStr ++ ";\n"
      { s with
        NamePostfix := s.NamePostfix + 1
        edits := s.edits ++
          [Edit.insertStringBeforeFunc s.CurrentFD RVStr, Edit.replaceExpr CE CommaStr] }
    else
      { s with edits := s.edits ++ [Edit.replaceExpr CE "0"] }

/-- The end of the translation unit; `none` when a `TransAssert` fails (the macro is defined
in `Transformation.h`; it ends the program when its condition is false). -/
def HandleTranslationUnit (Ctx : ASTContext) (s : State) : Option State :=
  if s.QueryInstanceOnly then
    some s
  else if s.TransformationCounter > s.ValidInstanceNum then
    some { s with TransError := TransformationError.TransMaxInstanceError }
  else if s.TheCallExpr.isNone then
    none
  else if s.CurrentFD.isNone then
    none
  else
    let s := { s with
      NamePostfix := getMaxNamePostfix s.TmpVarNamePre Ctx.TranslationUnitDecl + 1 }
    let s := replaceCallExpr s
    if Ctx.hasErrorOccurred || Ctx.hasFatalErrorOccurred then
      some { s with TransError := TransformationError.TransInternalError }
    else
      some s

/-- The analysis phase: `HandleTopLevelDecl` on every top-level declaration group in order. -/
def analyze (pre : String) (Ctx : ASTContext) (Counter : Int) (Query : Bool) : State :=
  Ctx.TranslationUnitDecl.foldl HandleTopLevelDecl (Initialize pre Counter Query)

/-- A whole run of the pass on a translation unit. -/
def run (pre : String) (Ctx : ASTContext) (Counter : Int) (Query : Bool) : Option State :=
  HandleTranslationUnit Ctx (analyze pre Ctx Counter Query)

/-! ## Call expressions in traversal order -/

mutual
/-- The call expressions of a node in pre-order: the node itself first when it is a call, then
those of its children from left to right. -/
def callExprsNode : Node → List CallExpr
  | .callExpr CE children => CE :: callExprsList children
  | .functionDecl _ children => callExprsList children
  | .namedDecl _ children => callExprsList children
  | .other children => callExprsList children
/-- The call expressions of a list of nodes in pre-order. -/
def callExprsList : NodeList → List CallExpr
  | .nil => []
  | .cons n rest => callExprsNode n ++ callExprsList rest
end

/-- The call expressions of a top-level declaration: those of its tree when it is a function
definition, none otherwise. -/
def callExprsDecl (d : Node) : List CallExpr :=
  match d with
  | .functionDecl FD _ => if FD.isThisDeclarationADefinition then callExprsNode d else []
  | _ => []

/-- The call expressions inside the top-level function definitions of a translation unit, in
traversal order. -/
def callExprs (TU : List DeclGroupRef) : List CallExpr :=
  TU.flatMap (fun D => D.flatMap callExprsDecl)

/-- Whether an edit is a `replaceExpr`. -/
def Edit.isReplaceExpr : Edit → Bool
  | .replaceExpr _ _ => true
  | .insertStringBeforeFunc _ _ => false

/-- Whether an edit is an `insertStringBeforeFunc`. -/
def Edit.isInsert : Edit → Bool
  | .replaceExpr _ _ => false
  | .insertStringBeforeFunc _ _ => true

/-- The call expressions of a top-level declaration, each with the top-level function
definition whose traversal meets it. -/
def callOwnersDecl (d : Node) : List (CallExpr × FunctionDecl) :=
  match d with
  | .functionDecl FD _ =>
    if FD.isThisDeclarationADefinition then (callExprsNode d).map (fun CE => (CE, FD)) else []
  | _ => []

/-- The call expressions inside the top-level function definitions of a translation unit, in
traversal order, each with the definition whose traversal meets it. -/
def callOwners (TU : List DeclGroupRef) : List (CallExpr × FunctionDecl) :=
  TU.flatMap (fun D => D.flatMap callOwnersDecl)

/-- The state `t` is what visiting the call expressions `cs`, in order, makes of `s`, the
recorded function apart. -/
structure Visited (s t : State) (cs : List CallExpr) : Prop where
  counter : t.TransformationCounter = s.TransformationCounter
  query : t.QueryInstanceOnly = s.QueryInstanceOnly
  num : t.ValidInstanceNum = s.ValidInstanceNum + cs.length
  err : t.TransError = s.TransError
  suffix : t.NamePostfix = s.NamePostfix
  pre : t.TmpVarNamePre = s.TmpVarNamePre
  edits : t.edits = s.edits
  call : t.TheCallExpr =
    if s.ValidInstanceNum < s.TransformationCounter ∧
        s.TransformationCounter ≤ s.ValidInstanceNum + cs.length then
      cs[(s.TransformationCounter - s.ValidInstanceNum - 1).toNat]?
    else s.TheCallExpr

/-- The visitor has a current function, and a function is recorded whenever a call is. -/
def Inside (s : State) : Prop :=
  s.CollectionVisitor.CurrentFD.isSome = true ∧
    (s.TheCallExpr.isSome = true → s.CurrentFD.isSome = true)

/-- A function is recorded whenever a call expression is. -/
def Recorded (s : State) : Prop :=
  s.TheCallExpr.isSome = true → s.CurrentFD.isSome = true

/-- The edits `replaceCallExpr` issues for the call `CE` recorded with `FD`, by result type,
when the next free suffix is `n`. -/
def issued (pre : String) (n : Nat) (CE : CallExpr) (FD : Option FunctionDecl) : List Edit :=
  if CE.type.isVoidType then [Edit.replaceExpr CE ""]
  else if CE.type.isUnionType || CE.type.isStructureType then
    [Edit.insertStringBeforeFunc FD
        (CE.type.getAsStringInternal (getTmpTransName pre n) ++ ";\n"),
      Edit.replaceExpr CE (getTmpTransName pre n)]
  else [Edit.replaceExpr CE "0"]

/-- The edits of a state are exactly one substitution, of the recorded call expression, plus
exactly one declaration insertion when and only when the type of the call is a struct or a
union. -/
def OneSubstitution (s : State) : Prop :=
  ∃ CE ES, s.TheCallExpr = some CE ∧
    s.edits.filter Edit.isReplaceExpr = [Edit.replaceExpr CE ES] ∧
    (s.edits.filter Edit.isInsert).length =
      (if CE.type.isUnionType || CE.type.isStructureType then 1 else 0) ∧
    s.edits.length = 1 + (s.edits.filter Edit.isInsert).length

/-! ## Example translation units -/

/-- The list of children of a node, from a list. -/
def NodeList.ofList : List Node → NodeList
  | [] => NodeList.nil
  | n :: ns => NodeList.cons n (NodeList.ofList ns)

/-- A call expression node without arguments: its only child is the reference to the callee. -/
def callNode (CE : CallExpr) : Node :=
  Node.callExpr CE (.ofList [Node.other .nil])

/-- A function prototype node: its only child is its type. -/
def prototypeNode (FD : FunctionDecl) : Node :=
  Node.functionDecl FD (.ofList [Node.other .nil])

/-- A function definition node: its children are its type and its body, a compound statement
with the given statements. -/
def definitionNode (FD : FunctionDecl) (body : List Node) : Node :=
  Node.functionDecl FD (.ofList [Node.other .nil, Node.other (.ofList body)])

/-- The declaration group of `struct S { int x; }`, at offsets 0 to 18. -/
def structS : DeclGroupRef :=
  [Node.namedDecl "S" (.ofList [Node.namedDecl "x" .nil])]

/-- The call `f()` of the scenario, at offsets 83 to 85: result type `void`. -/
def scenarioF : CallExpr := ⟨⟨TypeClass.Void, "void"⟩, ⟨83, 85⟩⟩

/-- The call `g()` of the scenario, at offsets 88 to 90: result type `int`. -/
def scenarioG : CallExpr := ⟨⟨TypeClass.Integer, "int"⟩, ⟨88, 90⟩⟩

/-- The call `h()` of the scenario, at offsets 93 to 95: result type `struct S`. -/
def scenarioH : CallExpr := ⟨⟨TypeClass.Struct, "struct S"⟩, ⟨93, 95⟩⟩

/-- The definition of `main` in the scenario, at offsets 66 to 98. -/
def scenarioMain : FunctionDecl := ⟨"main", true, ⟨66, 98⟩⟩

/-- The scenario of the spec, three calls inside `main`:
`struct S { int x; }; void f(void); int g(void); struct S h(void);`
`int main(void) { f(); g(); h(); }`, written on one line. -/
def scenarioTU : List DeclGroupRef :=
  [structS,
    [prototypeNode ⟨"f", false, ⟨21, 32⟩⟩],
    [prototypeNode ⟨"g", false, ⟨35, 45⟩⟩],
    [prototypeNode ⟨"h", false, ⟨48, 63⟩⟩],
    [definitionNode scenarioMain [callNode scenarioF, callNode scenarioG, callNode scenarioH]]]

/-- The scenario with a diagnostics engine that reports no error. -/
def scenarioCtx : ASTContext := ⟨scenarioTU, false, false⟩

/-- The scenario with a diagnostics engine that reports an error after the edits. -/
def scenarioErrCtx : ASTContext := ⟨scenarioTU, true, false⟩

/-- The call `h()` of `struct S { int x; }; void f(void) { struct S h(void); h(); }`, at
offsets 54 to 56. -/
def protoCall : CallExpr := ⟨⟨TypeClass.Struct, "struct S"⟩, ⟨54, 56⟩⟩

/-- The definition of `f` around the block-scope prototype, at offsets 21 to 59. -/
def protoF : FunctionDecl := ⟨"f", true, ⟨21, 59⟩⟩

/-- The block-scope prototype `struct S h(void)` inside the body of `f`, at offsets 36 to
51. -/
def protoH : FunctionDecl := ⟨"h", false, ⟨36, 51⟩⟩

/-- The translation unit `struct S { int x; }; void f(void) { struct S h(void); h(); }`: the
body of `f` declares `h` at block scope, in a declaration statement, and then calls it. -/
def protoCtx : ASTContext :=
  ⟨[structS,
    [definitionNode protoF
      [Node.other (.ofList [prototypeNode protoH]), callNode protoCall]]],
    false, false⟩

theorem visited_refl (s : State) : Visited s s [] := by
  refine ⟨rfl, rfl, by simp, rfl, rfl, rfl, rfl, ?_⟩
  rw [if_neg]
  simp only [List.length_nil, Nat.cast_zero, add_zero]
  omega

theorem visited_trans {s t u : State} {cs ds : List CallExpr}
    (h₁ : Visited s t cs) (h₂ : Visited t u ds) : Visited s u (cs ++ ds) := by
  refine ⟨h₂.counter.trans h₁.counter, h₂.query.trans h₁.query, ?_, h₂.err.trans h₁.err,
    h₂.suffix.trans h₁.suffix, h₂.pre.trans h₁.pre, h₂.edits.trans h₁.edits, ?_⟩
  · rw [h₂.num, h₁.num]
    simp only [List.length_append, Nat.cast_add]
    omega
  · rw [h₂.call, h₁.num, h₁.counter, h₁.call]
    simp only [List.length_append, Nat.cast_add]
    by_cases hA : s.ValidInstanceNum < s.TransformationCounter ∧
        s.TransformationCounter ≤ s.ValidInstanceNum + (cs.length : Int)
    · have hlt : (s.TransformationCounter - s.ValidInstanceNum - 1).toNat < cs.length := by
        omega
      rw [if_neg (by omega), if_pos hA, if_pos (by omega), List.getElem?_append_left hlt]
    · rw [if_neg hA]
      by_cases hB : s.ValidInstanceNum + (cs.length : Int) < s.TransformationCounter ∧
          s.TransformationCounter ≤ s.ValidInstanceNum + (cs.length : Int) + (ds.length : Int)
      · have hge : cs.length ≤ (s.TransformationCounter - s.ValidInstanceNum - 1).toNat := by
          omega
        rw [if_pos hB, if_pos (by omega), List.getElem?_append_right hge]
        congr 1
        omega
      · rw [if_neg hB, if_neg (by omega)]

theorem visited_visitCallExpr (s : State) (CE : CallExpr) :
    Visited s (VisitCallExpr s CE) [CE] := by
  unfold VisitCallExpr
  by_cases h : s.TransformationCounter = s.ValidInstanceNum + 1
  · refine ⟨?_, ?_, ?_, ?_, ?_, ?_, ?_, ?_⟩ <;> simp [h]
  · have hc : s.TheCallExpr =
        if s.ValidInstanceNum < s.TransformationCounter ∧
            s.TransformationCounter ≤ s.ValidInstanceNum + (([CE] : List CallExpr).length : Int)
        then [CE][(s.TransformationCounter - s.ValidInstanceNum - 1).toNat]?
        else s.TheCallExpr := by
      rw [if_neg]
      simp only [List.length_singleton, Nat.cast_one]
      omega
    refine ⟨?_, ?_, ?_, ?_, ?_, ?_, ?_, ?_⟩ <;> simp [h]
    simpa using hc

theorem visited_visitFunctionDecl (s : State) (FD : FunctionDecl) :
    Visited s (VisitFunctionDecl s FD) [] :=
  ⟨rfl, rfl, by simp [VisitFunctionDecl], rfl, rfl, rfl, rfl, by
    simp only [VisitFunctionDecl, List.length_nil, Nat.cast_zero, add_zero]
    rw [if_neg]
    omega⟩

mutual
theorem visited_traverseNode : ∀ (n : Node) (s : State),
    Visited s (TraverseNode n s) (callExprsNode n)
  | .callExpr CE children, s => by
    rw [TraverseNode, callExprsNode]
    exact visited_trans (visited_visitCallExpr s CE) (visited_traverseList children _)
  | .functionDecl FD children, s => by
    rw [TraverseNode, callExprsNode]
    exact visited_trans (visited_visitFunctionDecl s FD) (visited_traverseList children _)
  | .namedDecl _ children, s => by
    rw [TraverseNode, callExprsNode]
    exact visited_traverseList children s
  | .other children, s => by
    rw [TraverseNode, callExprsNode]
    exact visited_traverseList children s
theorem visited_traverseList : ∀ (ns : NodeList) (s : State),
    Visited s (TraverseList ns s) (callExprsList ns)
  | .nil, s => by
    rw [TraverseList, callExprsList]
    exact visited_refl s
  | .cons n rest, s => by
    rw [TraverseList, callExprsList]
    exact visited_trans (visited_traverseNode n s) (visited_traverseList rest _)
end

theorem visited_handleDecl (s : State) (d : Node) :
    Visited s (HandleDecl s d) (callExprsDecl d) := by
  cases d with
  | functionDecl FD children =>
    simp only [HandleDecl, callExprsDecl]
    split
    · exact visited_traverseNode _ s
    · exact visited_refl s
  | callExpr CE children => exact visited_refl s
  | namedDecl name children => exact visited_refl s
  | other children => exact visited_refl s

theorem visited_handleTopLevelDecl (D : DeclGroupRef) :
    ∀ s : State, Visited s (HandleTopLevelDecl s D) (D.flatMap callExprsDecl) := by
  induction D with
  | nil => intro s; exact visited_refl s
  | cons d D ih =>
    intro s
    simp only [HandleTopLevelDecl, List.foldl_cons, List.flatMap_cons]
    exact visited_trans (visited_handleDecl s d) (ih _)

theorem visited_analysis (TU : List DeclGroupRef) :
    ∀ s : State, Visited s (TU.foldl HandleTopLevelDecl s) (callExprs TU) := by
  induction TU with
  | nil => intro s; exact visited_refl s
  | cons D TU ih =>
    intro s
    simp only [callExprs, List.foldl_cons, List.flatMap_cons]
    exact visited_trans (visited_handleTopLevelDecl D s) (ih _)

/-! ## A recorded call expression comes with a recorded function -/

theorem inside_visitCallExpr {s : State} (CE : CallExpr) (h : Inside s) :
    Inside (VisitCallExpr s CE) := by
  unfold VisitCallExpr
  by_cases hc : s.TransformationCounter = s.ValidInstanceNum + 1
  · simp only [ne_eq, hc, not_true_eq_false, if_false]
    exact ⟨h.1, fun _ => h.1⟩
  · simp only [ne_eq, hc, not_false_eq_true, if_true]
    exact h

mutual
theorem inside_traverseNode : ∀ (n : Node) (s : State), Inside s → Inside (TraverseNode n s)
  | .callExpr CE children, s, h => by
    rw [TraverseNode]
    exact inside_traverseList children _ (inside_visitCallExpr CE h)
  | .functionDecl FD children, s, h => by
    rw [TraverseNode]
    exact inside_traverseList children (VisitFunctionDecl s FD) ⟨rfl, h.2⟩
  | .namedDecl _ children, s, h => by
    rw [TraverseNode]
    exact inside_traverseList children s h
  | .other children, s, h => by
    rw [TraverseNode]
    exact inside_traverseList children s h
theorem inside_traverseList : ∀ (ns : NodeList) (s : State), Inside s → Inside (TraverseList ns s)
  | .nil, s, h => by
    rw [TraverseList]
    exact h
  | .cons n rest, s, h => by
    rw [TraverseList]
    exact inside_traverseList rest _ (inside_traverseNode n s h)
end

theorem recorded_handleDecl {s : State} (d : Node) (h : Recorded s) :
    Recorded (HandleDecl s d) := by
  cases d with
  | functionDecl FD children =>
    simp only [HandleDecl]
    split
    · rw [TraverseNode]
      exact (inside_traverseList children (VisitFunctionDecl s FD) ⟨rfl, h⟩).2
    · exact h
  | callExpr CE children => exact h
  | namedDecl name children => exact h
  | other children => exact h

theorem recorded_handleTopLevelDecl (D : DeclGroupRef) :
    ∀ s : State, Recorded s → Recorded (HandleTopLevelDecl s D) := by
  induction D with
  | nil => intro s h; exact h
  | cons d D ih =>
    intro s h
    simp only [HandleTopLevelDecl, List.foldl_cons]
    exact ih _ (recorded_handleDecl d h)

theorem recorded_analysis (TU : List DeclGroupRef) :
    ∀ s : State, Recorded s → Recorded (TU.foldl HandleTopLevelDecl s) := by
  induction TU with
  | nil => intro s h; exact h
  | cons D TU ih =>
    intro s h
    simp only [List.foldl_cons]
    exact ih _ (recorded_handleTopLevelDecl D s h)

/-! ## The analysis phase -/

theorem analyze_visited (pre : String) (Ctx : ASTContext) (i : Int) (q : Bool) :
    Visited (Initialize pre i q) (analyze pre Ctx i q) (callExprs Ctx.TranslationUnitDecl) :=
  visited_analysis _ _

theorem analyze_recorded (pre : String) (Ctx : ASTContext) (i : Int) (q : Bool) :
    Recorded (analyze pre Ctx i q) :=
  recorded_analysis _ _ (fun h => by simp [Initialize] at h)

theorem analyze_num (pre : String) (Ctx : ASTContext) (i : Int) (q : Bool) :
    (analyze pre Ctx i q).ValidInstanceNum = (callExprs Ctx.TranslationUnitDecl).length := by
  rw [(analyze_visited pre Ctx i q).num]
  simp [Initialize]

theorem analyze_call (pre : String) (Ctx : ASTContext) (i : Int) (q : Bool)
    (h₁ : 1 ≤ i) (h₂ : i ≤ (callExprs Ctx.TranslationUnitDecl).length) :
    ∃ CE FD, (callExprs Ctx.TranslationUnitDecl)[(i - 1).toNat]? = some CE ∧
      (analyze pre Ctx i q).TheCallExpr = some CE ∧
      (analyze pre Ctx i q).CurrentFD = some FD := by
  have hlt : (i - 1).toNat < (callExprs Ctx.TranslationUnitDecl).length := by omega
  have hc := (analyze_visited pre Ctx i q).call
  simp only [Initialize, zero_add, sub_zero] at hc
  rw [if_pos ⟨by omega, h₂⟩, List.getElem?_eq_getElem hlt] at hc
  have hr := analyze_recorded pre Ctx i q (by rw [hc]; rfl)
  obtain ⟨FD, hFD⟩ := Option.isSome_iff_exists.mp hr
  exact ⟨_, FD, List.getElem?_eq_getElem hlt, hc, hFD⟩

theorem replaceCallExpr_edits (s : State) (CE : CallExpr) (h : s.TheCallExpr = some CE) :
    (replaceCallExpr s).edits = s.edits ++ issued s.TmpVarNamePre s.NamePostfix CE s.CurrentFD := by
  unfold replaceCallExpr issued
  rw [h]
  dsimp only
  split
  · rfl
  · split <;> rfl

theorem replaceCallExpr_frame (s : State) :
    (replaceCallExpr s).ValidInstanceNum = s.ValidInstanceNum ∧
      (replaceCallExpr s).TransError = s.TransError ∧
      (replaceCallExpr s).TheCallExpr = s.TheCallExpr ∧
      (replaceCallExpr s).CurrentFD = s.CurrentFD := by
  unfold replaceCallExpr
  split
  · exact ⟨rfl, rfl, rfl, rfl⟩
  · dsimp only
    split
    · exact ⟨rfl, rfl, rfl, rfl⟩
    · split <;> exact ⟨rfl, rfl, rfl, rfl⟩

theorem replaceCallExpr_namePostfix (s : State) (CE : CallExpr) (h : s.TheCallExpr = some CE) :
    (replaceCallExpr s).NamePostfix =
      if CE.type.isVoidType then s.NamePostfix
      else if CE.type.isUnionType || CE.type.isStructureType then s.NamePostfix + 1
      else s.NamePostfix := by
  unfold replaceCallExpr
  rw [h]
  dsimp only
  split
  · rfl
  · split <;> rfl

/-- A non-query run with the counter between 1 and the number of call expressions: it ends
normally, and its final state is described field by field. -/
theorem run_found (pre : String) (Ctx : ASTContext) (i : Int)
    (h₁ : 1 ≤ i) (h₂ : i ≤ (callExprs Ctx.TranslationUnitDecl).length) :
    ∃ s CE FD, run pre Ctx i false = some s ∧
      (callExprs Ctx.TranslationUnitDecl)[(i - 1).toNat]? = some CE ∧
      (analyze pre Ctx i false).TheCallExpr = some CE ∧
      (analyze pre Ctx i false).CurrentFD = some FD ∧
      s.TheCallExpr = some CE ∧ s.CurrentFD = some FD ∧
      s.ValidInstanceNum = (callExprs Ctx.TranslationUnitDecl).length ∧
      s.TransError = (if Ctx.hasErrorOccurred || Ctx.hasFatalErrorOccurred then
        TransformationError.TransInternalError else TransformationError.TransSuccess) ∧
      s.edits = issued pre (getMaxNamePostfix pre Ctx.TranslationUnitDecl + 1) CE (some FD) ∧
      s.NamePostfix =
        (if CE.type.isVoidType then getMaxNamePostfix pre Ctx.TranslationUnitDecl + 1
        else if CE.type.isUnionType || CE.type.isStructureType then
          getMaxNamePostfix pre Ctx.TranslationUnitDecl + 2
        else getMaxNamePostfix pre Ctx.TranslationUnitDecl + 1) := by
  obtain ⟨CE, FD, hget, hCE, hFD⟩ := analyze_call pre Ctx i false h₁ h₂
  have hv := analyze_visited pre Ctx i false
  have hq : (analyze pre Ctx i false).QueryInstanceOnly = false := hv.query
  have hcnt : (analyze pre Ctx i false).TransformationCounter = i := hv.counter
  have hnum := analyze_num pre Ctx i false
  have herr : (analyze pre Ctx i false).TransError = TransformationError.TransSuccess := hv.err
  have hed : (analyze pre Ctx i false).edits = [] := hv.edits
  have hpre : (analyze pre Ctx i false).TmpVarNamePre = pre := hv.pre
  have hgt : ¬ (analyze pre Ctx i false).TransformationCounter >
      (analyze pre Ctx i false).ValidInstanceNum := by
    rw [hcnt, hnum]; omega
  set a := analyze pre Ctx i false with ha
  set b : State :=
    { a with NamePostfix := getMaxNamePostfix a.TmpVarNamePre Ctx.TranslationUnitDecl + 1 }
    with hb
  have hbCE : b.TheCallExpr = some CE := hCE
  have hrun : run pre Ctx i false =
      if Ctx.hasErrorOccurred || Ctx.hasFatalErrorOccurred then
        some { replaceCallExpr b with TransError := TransformationError.TransInternalError }
      else some (replaceCallExpr b) := by
    unfold run
    rw [← ha, HandleTranslationUnit, if_neg (by simp [hq]), if_neg hgt,
      if_neg (by simp [hCE]), if_neg (by simp [hFD])]
  have hfr := replaceCallExpr_frame b
  have hedits := replaceCallExpr_edits b CE hbCE
  have hpost := replaceCallExpr_namePostfix b CE hbCE
  have hbed : b.edits = [] := hed
  have hbpre : b.TmpVarNamePre = pre := hpre
  have hbFD : b.CurrentFD = some FD := hFD
  have hbnum : b.ValidInstanceNum = (callExprs Ctx.TranslationUnitDecl).length := hnum
  have hbpost : b.NamePostfix = getMaxNamePostfix pre Ctx.TranslationUnitDecl + 1 := by
    rw [hb, hpre]
  have hberr : b.TransError = TransformationError.TransSuccess := herr
  rw [hbed, hbpre, hbFD, hbpost, List.nil_append] at hedits
  rw [hbpost] at hpost
  by_cases hd : (Ctx.hasErrorOccurred || Ctx.hasFatalErrorOccurred) = true
  · rw [if_pos hd] at hrun
    refine ⟨_, CE, FD, hrun, hget, hCE, hFD, ?_, ?_, ?_, ?_, hedits, hpost⟩
    · exact hfr.2.2.1.trans hbCE
    · exact hfr.2.2.2.trans hbFD
    · exact hfr.1.trans hbnum
    · rw [if_pos hd]
  · rw [if_neg hd] at hrun
    refine ⟨_, CE, FD, hrun, hget, hCE, hFD, ?_, ?_, ?_, ?_, hedits, hpost⟩
    · exact hfr.2.2.1.trans hbCE
    · exact hfr.2.2.2.trans hbFD
    · exact hfr.1.trans hbnum
    · rw [if_neg hd]
      exact hfr.2.1.trans hberr

/-! ## The claims -/

/-- C1: for every translation unit whose top-level function definitions contain K call
expressions and every counter `i` with `1 ≤ i ≤ K`, a non-query run ends normally and issues
exactly one `replaceExpr` edit, and the call expression it targets is the `i`-th call expression
in traversal order (the first call visited has ordinal 1). -/
theorem C1_replaces_ith_call (pre : String) (Ctx : ASTContext) (i : Int)
    (h₁ : 1 ≤ i) (h₂ : i ≤ (callExprs Ctx.TranslationUnitDecl).length) :
    ∃ s CE ES, run pre Ctx i false = some s ∧
      (callExprs Ctx.TranslationUnitDecl)[(i - 1).toNat]? = some CE ∧
      s.edits.filter Edit.isReplaceExpr = [Edit.replaceExpr CE ES] := by
  obtain ⟨s, CE, FD, hrun, hget, -, -, -, -, -, -, hed, -⟩ := run_found pre Ctx i h₁ h₂
  unfold issued at hed
  by_cases hv : CE.type.isVoidType = true
  · exact ⟨s, CE, "", hrun, hget, by rw [hed, if_pos hv]; rfl⟩
  · by_cases hs : (CE.type.isUnionType || CE.type.isStructureType) = true
    · exact ⟨s, CE, _, hrun, hget, by rw [hed, if_neg hv, if_pos hs]; rfl⟩
    · exact ⟨s, CE, "0", hrun, hget, by rw [hed, if_neg hv, if_neg hs]; rfl⟩

/-- The scenario of the spec with counter 2: C1 applies, and the call replaced is `g()`. -/
theorem C1_replaces_ith_call_witness :
    (1 : Int) ≤ 2 ∧ (2 : Int) ≤ (callExprs scenarioCtx.TranslationUnitDecl).length ∧
      ∃ s CE ES, run "tmp_var_" scenarioCtx 2 false = some s ∧
        (callExprs scenarioCtx.TranslationUnitDecl)[((2 : Int) - 1).toNat]? = some CE ∧
        s.edits.filter Edit.isReplaceExpr = [Edit.replaceExpr CE ES] :=
  ⟨by decide, by decide, C1_replaces_ith_call "tmp_var_" scenarioCtx 2 (by decide) (by decide)⟩

/-- A non-query run whose counter is not above the number of call expressions does not end
with the error `TransMaxInstanceError`. -/
theorem run_not_exceeded (pre : String) (Ctx : ASTContext) (i : Int)
    (h : i ≤ (callExprs Ctx.TranslationUnitDecl).length) (s : State)
    (hrun : run pre Ctx i false = some s) :
    s.TransError ≠ TransformationError.TransMaxInstanceError := by
  by_cases h₁ : 1 ≤ i
  · obtain ⟨t, CE, FD, hrun', -, -, -, -, -, -, herr, -, -⟩ := run_found pre Ctx i h₁ h
    rw [hrun] at hrun'
    cases hrun'
    rw [herr]
    split <;> simp
  · exfalso
    have hv := analyze_visited pre Ctx i false
    have hnum := analyze_num pre Ctx i false
    have hcall := hv.call
    rw [if_neg (by simp only [Initialize]; omega)] at hcall
    have hcnt : (analyze pre Ctx i false).TransformationCounter = i := hv.counter
    have hq : (analyze pre Ctx i false).QueryInstanceOnly = false := hv.query
    unfold run at hrun
    rw [HandleTranslationUnit, if_neg (by simp [hq]), if_neg (by rw [hcnt, hnum]; omega),
      if_pos (by rw [hcall]; rfl)] at hrun
    cases hrun

/-- A non-query run whose counter is above the number of call expressions ends with
`TransMaxInstanceError`, without an edit. -/
theorem run_exceeded (pre : String) (Ctx : ASTContext) (i : Int)
    (h : ((callExprs Ctx.TranslationUnitDecl).length : Int) < i) :
    ∃ s, run pre Ctx i false = some s ∧
      s.TransError = TransformationError.TransMaxInstanceError ∧
      s.edits = [] ∧
      s.ValidInstanceNum = (callExprs Ctx.TranslationUnitDecl).length := by
  have hv := analyze_visited pre Ctx i false
  have hnum := analyze_num pre Ctx i false
  have hcnt : (analyze pre Ctx i false).TransformationCounter = i := hv.counter
  have hq : (analyze pre Ctx i false).QueryInstanceOnly = false := hv.query
  have hed : (analyze pre Ctx i false).edits = [] := hv.edits
  refine ⟨{ analyze pre Ctx i false with
      TransError := TransformationError.TransMaxInstanceError }, ?_, rfl, hed, hnum⟩
  unfold run
  rw [HandleTranslationUnit, if_neg (by simp [hq]), if_pos (by rw [hcnt, hnum]; exact h)]

/-- C2: for every translation unit with K call expressions inside top-level function
definitions and every counter `i > K`, a non-query run sets the error to
`TransMaxInstanceError`, issues no edit at all and leaves `ValidInstanceNum` equal to K;
conversely, a non-query run ends with this error only if `i > K`. -/
theorem C2_exceeded (pre : String) (Ctx : ASTContext) (i : Int) :
    (((callExprs Ctx.TranslationUnitDecl).length : Int) < i →
      ∃ s, run pre Ctx i false = some s ∧
        s.TransError = TransformationError.TransMaxInstanceError ∧
        s.edits = [] ∧
        s.ValidInstanceNum = (callExprs Ctx.TranslationUnitDecl).length) ∧
    (∀ s, run pre Ctx i false = some s →
      s.TransError = TransformationError.TransMaxInstanceError →
      ((callExprs Ctx.TranslationUnitDecl).length : Int) < i) := by
  refine ⟨run_exceeded pre Ctx i, fun s hrun herr => ?_⟩
  by_contra hle
  exact run_not_exceeded pre Ctx i (not_lt.mp hle) s hrun herr

/-- The scenario of the spec with counter 4: the run ends with `TransMaxInstanceError`,
without an edit and with a total of 3, and a run ending so has its counter above 3. -/
theorem C2_exceeded_witness :
    (∃ s, run "tmp_var_" scenarioCtx 4 false = some s ∧
        s.TransError = TransformationError.TransMaxInstanceError ∧
        s.edits = [] ∧
        s.ValidInstanceNum = (callExprs scenarioCtx.TranslationUnitDecl).length) ∧
    ((callExprs scenarioCtx.TranslationUnitDecl).length : Int) < 4 :=
  ⟨(C2_exceeded "tmp_var_" scenarioCtx 4).1 (by decide),
    (C2_exceeded "tmp_var_" scenarioCtx 4).2
      { analyze "tmp_var_" scenarioCtx 4 false with
        TransError := TransformationError.TransMaxInstanceError } rfl rfl⟩

/-- C3: for every translation unit and every counter (in range, out of range or not
positive), a run with `QueryInstanceOnly` set ends normally, issues no edit and sets no error,
and `ValidInstanceNum` is the number K of call expressions inside top-level function
definitions, whatever the counter. -/
theorem C3_query_only (pre : String) (Ctx : ASTContext) (i : Int) :
    ∃ s, run pre Ctx i true = some s ∧
      s.edits = [] ∧
      s.TransError = TransformationError.TransSuccess ∧
      s.ValidInstanceNum = (callExprs Ctx.TranslationUnitDecl).length := by
  have hv := analyze_visited pre Ctx i true
  have hq : (analyze pre Ctx i true).QueryInstanceOnly = true := hv.query
  refine ⟨analyze pre Ctx i true, ?_, hv.edits, hv.err, analyze_num pre Ctx i true⟩
  unfold run
  rw [HandleTranslationUnit, if_pos hq]

/-- C5: for every run whose selected call has an integer, floating, enumeration or pointer
result type, the only edit issued is `replaceExpr` on the selected call with the text "0"; no
`insertStringBeforeFunc` is issued. -/
theorem C5_scalar_zero (pre : String) (Ctx : ASTContext) (i : Int)
    (h₁ : 1 ≤ i) (h₂ : i ≤ (callExprs Ctx.TranslationUnitDecl).length) (CE : CallExpr)
    (hCE : (callExprs Ctx.TranslationUnitDecl)[(i - 1).toNat]? = some CE)
    (hty : CE.type.typeClass = TypeClass.Integer ∨ CE.type.typeClass = TypeClass.Floating ∨
      CE.type.typeClass = TypeClass.Enumeration ∨ CE.type.typeClass = TypeClass.Pointer) :
    ∃ s, run pre Ctx i false = some s ∧ s.edits = [Edit.replaceExpr CE "0"] ∧
      s.edits.filter Edit.isInsert = [] := by
  obtain ⟨s, CE', FD, hrun, hget, -, -, -, -, -, -, hed, -⟩ := run_found pre Ctx i h₁ h₂
  rw [hCE] at hget
  cases hget
  have hv : ¬ CE.type.isVoidType = true := by
    rcases hty with h | h | h | h <;> simp [QualType.isVoidType, h]
  have hs : ¬ (CE.type.isUnionType || CE.type.isStructureType) = true := by
    rcases hty with h | h | h | h <;>
      simp [QualType.isUnionType, QualType.isStructureType, h]
  have hed' : s.edits = [Edit.replaceExpr CE "0"] := by
    rw [hed, issued, if_neg hv, if_neg hs]
  exact ⟨s, hrun, hed', by rw [hed']; rfl⟩

/-- The scenario of the spec with counter 2: `g()` has type `int` and is replaced with "0". -/
theorem C5_scalar_zero_witness :
    ∃ s, run "tmp_var_" scenarioCtx 2 false = some s ∧
      s.edits = [Edit.replaceExpr scenarioG "0"] ∧ s.edits.filter Edit.isInsert = [] :=
  C5_scalar_zero "tmp_var_" scenarioCtx 2 (by decide) (by decide) scenarioG (by decide)
    (Or.inl rfl)

/-- C6: for every run whose selected call has result type `void`, the only edit issued is
`replaceExpr` on the selected call with the empty string, no declaration is inserted, and no
placeholder name is allocated: `replaceCallExpr` leaves `NamePostfix` as it finds it, at the
value `getMaxNamePostfix + 1` that `HandleTranslationUnit` has just given it. -/
theorem C6_void_empty (pre : String) (Ctx : ASTContext) (i : Int)
    (h₁ : 1 ≤ i) (h₂ : i ≤ (callExprs Ctx.TranslationUnitDecl).length) (CE : CallExpr)
    (hCE : (callExprs Ctx.TranslationUnitDecl)[(i - 1).toNat]? = some CE)
    (hty : CE.type.typeClass = TypeClass.Void) :
    (∃ s, run pre Ctx i false = some s ∧ s.edits = [Edit.replaceExpr CE ""] ∧
      s.edits.filter Edit.isInsert = [] ∧
      s.NamePostfix = getMaxNamePostfix pre Ctx.TranslationUnitDecl + 1) ∧
    (∀ t : State, t.TheCallExpr = some CE →
      (replaceCallExpr t).NamePostfix = t.NamePostfix) := by
  have hv : CE.type.isVoidType = true := by simp [QualType.isVoidType, hty]
  refine ⟨?_, fun t ht => ?_⟩
  · obtain ⟨s, CE', FD, hrun, hget, -, -, -, -, -, -, hed, hpost⟩ := run_found pre Ctx i h₁ h₂
    rw [hCE] at hget
    cases hget
    have hed' : s.edits = [Edit.replaceExpr CE ""] := by
      rw [hed, issued, if_pos hv]
    refine ⟨s, hrun, hed', by rw [hed']; rfl, ?_⟩
    rw [hpost, if_pos hv]
  · rw [replaceCallExpr_namePostfix t CE ht, if_pos hv]

/-- The scenario of the spec with counter 1: `f()` has type `void` and is replaced with the
empty string. -/
theorem C6_void_empty_witness :
    (∃ s, run "tmp_var_" scenarioCtx 1 false = some s ∧
      s.edits = [Edit.replaceExpr scenarioF ""] ∧
      s.edits.filter Edit.isInsert = [] ∧
      s.NamePostfix = getMaxNamePostfix "tmp_var_" scenarioCtx.TranslationUnitDecl + 1) ∧
    (∀ t : State, t.TheCallExpr = some scenarioF →
      (replaceCallExpr t).NamePostfix = t.NamePostfix) :=
  C6_void_empty "tmp_var_" scenarioCtx 1 (by decide) (by decide) scenarioF (by decide) rfl

/-- C10: for every translation unit with K call expressions inside top-level function
definitions and every counter `i` with `1 ≤ i ≤ K`, after the analysis phase both `TheCallExpr`
and `CurrentFD` are not `NULL`, the check of the counter against `ValidInstanceNum` passes, and
`HandleTranslationUnit` ends normally: neither `TransAssert` fails. -/
theorem C10_asserts_hold (pre : String) (Ctx : ASTContext) (i : Int)
    (h₁ : 1 ≤ i) (h₂ : i ≤ (callExprs Ctx.TranslationUnitDecl).length) :
    (analyze pre Ctx i false).TheCallExpr.isSome = true ∧
      (analyze pre Ctx i false).CurrentFD.isSome = true ∧
      ¬ (analyze pre Ctx i false).TransformationCounter >
        (analyze pre Ctx i false).ValidInstanceNum ∧
      (HandleTranslationUnit Ctx (analyze pre Ctx i false)).isSome = true := by
  obtain ⟨s, CE, FD, hrun, -, hCE, hFD, -⟩ := run_found pre Ctx i h₁ h₂
  have hcnt : (analyze pre Ctx i false).TransformationCounter = i :=
    (analyze_visited pre Ctx i false).counter
  refine ⟨by rw [hCE]; rfl, by rw [hFD]; rfl, ?_, ?_⟩
  · rw [hcnt, analyze_num]
    omega
  · unfold run at hrun
    rw [hrun]
    rfl

/-- The scenario of the spec with counter 3: both pointers are set after the analysis. -/
theorem C10_asserts_hold_witness :
    (analyze "tmp_var_" scenarioCtx 3 false).TheCallExpr.isSome = true ∧
      (analyze "tmp_var_" scenarioCtx 3 false).CurrentFD.isSome = true ∧
      ¬ (analyze "tmp_var_" scenarioCtx 3 false).TransformationCounter >
        (analyze "tmp_var_" scenarioCtx 3 false).ValidInstanceNum ∧
      (HandleTranslationUnit scenarioCtx (analyze "tmp_var_" scenarioCtx 3 false)).isSome = true :=
  C10_asserts_hold "tmp_var_" scenarioCtx 3 (by decide) (by decide)

theorem issued_oneSubstitution (pre : String) (n : Nat) (CE : CallExpr)
    (FD : Option FunctionDecl) (s : State) (hCE : s.TheCallExpr = some CE)
    (hed : s.edits = issued pre n CE FD) : OneSubstitution s := by
  unfold OneSubstitution
  unfold issued at hed
  by_cases hv : CE.type.isVoidType = true
  · have hs : ¬ (CE.type.isUnionType || CE.type.isStructureType) = true := by
      simp only [QualType.isVoidType, decide_eq_true_eq] at hv
      simp [QualType.isUnionType, QualType.isStructureType, hv]
    rw [if_pos hv] at hed
    exact ⟨CE, "", hCE, by rw [hed]; rfl, by rw [hed, if_neg hs]; rfl, by rw [hed]; rfl⟩
  · by_cases hs : (CE.type.isUnionType || CE.type.isStructureType) = true
    · rw [if_neg hv, if_pos hs] at hed
      exact ⟨CE, _, hCE, by rw [hed]; rfl, by rw [hed, if_pos hs]; rfl, by rw [hed]; rfl⟩
    · rw [if_neg hv, if_neg hs] at hed
      exact ⟨CE, "0", hCE, by rw [hed]; rfl, by rw [hed, if_neg hs]; rfl, by rw [hed]; rfl⟩

/-- C7 as stated fails: in the scenario of the spec with counter 2 and a diagnostics engine
that reports an error, the run ends with the error `TransInternalError` although the edit
`replaceExpr` of `g()` has been issued. -/
theorem C7_error_after_edits :
    (run "tmp_var_" scenarioErrCtx 2 false).map (fun s => (s.TransError, s.edits)) =
      some (TransformationError.TransInternalError, [Edit.replaceExpr scenarioG "0"]) := by
  decide

/-- C7, amended: every non-query run with a counter of at least 1 ends normally in exactly one
of three ways: without an error, the diagnostics engine having reported none, the edits being
exactly one substitution plus exactly one declaration insertion when and only when the call type
is a struct or a union; or with `TransMaxInstanceError` and no edit at all; or with
`TransInternalError`, the diagnostics engine having reported an error, after the same edits as
in the first case have been issued. -/
theorem C7_outcomes (pre : String) (Ctx : ASTContext) (i : Int) (h₁ : 1 ≤ i) :
    ∃ s, run pre Ctx i false = some s ∧
      ((s.TransError = TransformationError.TransSuccess ∧
          (Ctx.hasErrorOccurred || Ctx.hasFatalErrorOccurred) = false ∧ OneSubstitution s) ∨
        (s.TransError = TransformationError.TransMaxInstanceError ∧ s.edits = []) ∨
        (s.TransError = TransformationError.TransInternalError ∧
          (Ctx.hasErrorOccurred || Ctx.hasFatalErrorOccurred) = true ∧ OneSubstitution s)) := by
  by_cases h₂ : i ≤ (callExprs Ctx.TranslationUnitDecl).length
  · obtain ⟨s, CE, FD, hrun, -, -, -, hCE, -, -, herr, hed, -⟩ := run_found pre Ctx i h₁ h₂
    have hone := issued_oneSubstitution _ _ CE _ s hCE hed
    refine ⟨s, hrun, ?_⟩
    by_cases hd : (Ctx.hasErrorOccurred || Ctx.hasFatalErrorOccurred) = true
    · rw [if_pos hd] at herr
      exact Or.inr (Or.inr ⟨herr, hd, hone⟩)
    · rw [if_neg hd] at herr
      exact Or.inl ⟨herr, by simpa using hd, hone⟩
  · obtain ⟨s, hrun, herr, hed, -⟩ := (run_exceeded pre Ctx i (not_le.mp h₂))
    exact ⟨s, hrun, Or.inr (Or.inl ⟨herr, hed⟩)⟩

/-- The scenario of the spec with counter 3 and an error from the diagnostics engine: the run
ends in one of the three ways. -/
theorem C7_outcomes_witness :
    ∃ s, run "tmp_var_" scenarioErrCtx 3 false = some s ∧
      ((s.TransError = TransformationError.TransSuccess ∧
          (scenarioErrCtx.hasErrorOccurred || scenarioErrCtx.hasFatalErrorOccurred) = false ∧
          OneSubstitution s) ∨
        (s.TransError = TransformationError.TransMaxInstanceError ∧ s.edits = []) ∨
        (s.TransError = TransformationError.TransInternalError ∧
          (scenarioErrCtx.hasErrorOccurred || scenarioErrCtx.hasFatalErrorOccurred) = true ∧
          OneSubstitution s)) :=
  C7_outcomes "tmp_var_" scenarioErrCtx 3 (by decide)

/-- C9 fails on `struct S { int x; }; void f(void) { struct S h(void); h(); }` with counter 1:
the first call expression is met by the traversal of the definition of `f`, but the function
recorded with it is the block-scope prototype of `h`, which `VisitFunctionDecl` has made the
current function; the declaration of the placeholder is inserted before that prototype, inside
the body of `f`. -/
theorem C9_block_scope_prototype :
    (callOwners protoCtx.TranslationUnitDecl)[0]? = some (protoCall, protoF) ∧
      (analyze "tmp_var_" protoCtx 1 false).TheCallExpr = some protoCall ∧
      (analyze "tmp_var_" protoCtx 1 false).CurrentFD = some protoH ∧
      protoH ≠ protoF ∧
      (run "tmp_var_" protoCtx 1 false).map (fun s => s.edits) =
        some [Edit.insertStringBeforeFunc (some protoH) "struct S tmp_var_1;\n",
          Edit.replaceExpr protoCall "tmp_var_1"] := by
  decide

/-! ## Placeholder names -/

end CallExprToValue
